import Mathlib

/-!
Shallow embedding of the SRS surface filter
(`SegmentEditorSRSFilterLib/SegmentEditorEffect.py`, class `SRSFilterLogic`,
method `ApplySRSFilter` and its helper `remeshPolydata`), together with
theorems settling the claims of the specification.

Geometry is embedded over `ℝ` (`numpy` float arrays become `Vec3`); the
voxel-dimension arithmetic of `remeshPolydata` is embedded over `ℚ`, since it
only uses field operations and `math.ceil`.  External VTK collaborators
(the cell locator, marching cubes, subdivision, the three smoothing filters,
the sphere source and the solid assembly) are opaque parameters collected in
an `Externals` record; every computation written in the Python source itself
is embedded directly.
-/

noncomputable section

/-- Three-dimensional point or vector with real coordinates, standing for the
3-element `numpy` arrays of the source. -/
structure Vec3 where
  x : ℝ
  y : ℝ
  z : ℝ

instance : Zero Vec3 := ⟨⟨0, 0, 0⟩⟩

instance : Add Vec3 := ⟨fun a b => ⟨a.x + b.x, a.y + b.y, a.z + b.z⟩⟩

instance : Sub Vec3 := ⟨fun a b => ⟨a.x - b.x, a.y - b.y, a.z - b.z⟩⟩

instance : Neg Vec3 := ⟨fun a => ⟨-a.x, -a.y, -a.z⟩⟩

/-- Componentwise scaling `c * v`, standing for `numpy` vector-scalar `*`. -/
def Vec3.scale (c : ℝ) (v : Vec3) : Vec3 := ⟨c * v.x, c * v.y, c * v.z⟩

/-- Componentwise division `v / c`, standing for `numpy` vector-scalar `/`. -/
def Vec3.divScalar (v : Vec3) (c : ℝ) : Vec3 := ⟨v.x / c, v.y / c, v.z / c⟩

/-- Dot product of two vectors, standing for `np.dot`. -/
def Vec3.dot (a b : Vec3) : ℝ := a.x * b.x + a.y * b.y + a.z * b.z

/-- Euclidean norm, standing for `np.linalg.norm`. -/
def Vec3.norm (v : Vec3) : ℝ := Real.sqrt (v.dot v)

/-- Mesh as `vtkPolyData` is used by the source: an indexed sequence of points
plus cells given as lists of point indices. -/
structure Mesh where
  points : List Vec3
  cells : List (List ℕ)

/-- Output type strings accepted by `ApplySRSFilter` (`OUTPUT_MODEL`,
`OUTPUT_SEGMENTATION`); `UNKNOWN` stands for any other string, which the
dispatch code answers with `logging.error('unknown outputType')`. -/
inductive OutputType
  | MODEL
  | SEGMENTATION
  | UNKNOWN
deriving DecidableEq

/-- Filter mode strings (`MODE_CONVEXHULL` .. `MODE_SOLIDIFIED`);
`UNKNOWNMODE` stands for any other string, which falls through every dispatch
branch to `logging.error('unknown filterMode.')`. -/
inductive FilterMode
  | CONVEXHULL
  | RAYCASTS
  | DEEPHULL
  | NONMANIFOLD
  | SOLIDIFIED
  | UNKNOWNMODE
deriving DecidableEq

/-- Configuration record: the `options` dictionary of `ApplySRSFilter` after
`options.update(kwargs)`.  The two iteration counts are stored as naturals,
standing for `int(options[...])` of the validated integer parameters. -/
structure Options where
  outputType : OutputType
  filterMode : FilterMode
  offsetFirstShrinkwrap : ℝ
  spacingFirstRemesh : ℝ
  spacingSecondRemesh : ℝ
  iterationsFirstShrinkwrap : ℕ
  iterationsSecondShrinkwrap : ℕ
  raycastSearchEdgeLength : ℝ
  raycastOutputEdgeLength : ℝ
  raycastMaxHitDistance : ℝ
  raycastMaxLength : ℝ
  raycastMinLength : ℝ
  maxModelDistance : ℝ
  solidificationThickness : ℝ
  smoothingFactor : ℝ

/-- Log and progress messages the run emits through `self.logCallback` and
`logging.error`; `cleared` is the empty message sent by `cleanup()`. -/
inductive LogMsg
  | filtering
  | shrinkwrapping
  | remeshing
  | raycasting
  | removingCaps
  | solidifying
  | creatingModel
  | updatingSegmentation
  | errorSegNonmanifold
  | errorUnknownOutputType
  | errorUnknownFilterMode
  | cleared
deriving DecidableEq

/-- External VTK collaborators used by `ApplySRSFilter`.  Each field stands
for one VTK object whose computation is not written in the repository:
nearest-point and ray queries of `vtkCellLocator` built over a dataset,
`vtkImplicitPolyDataDistance`, the rasterize-and-extract chain of
`remeshPolydata` (its dimension arithmetic, which is source code, is embedded
separately as `remeshDims`), `vtkAdaptiveSubdivisionFilter` followed by
`vtkCleanPolyData`, `vtkPolyDataNormals` point normals,
`vtkSmoothPolyDataFilter` with a source surface, the windowed-sinc filter of
`smoothPolydata`, `vtkSphereSource` followed by `vtkCleanPolyData`, and the
solidification assembly (whose per-vertex inner-offset arithmetic, which is
source code, is embedded separately as `solidifyInnerPoint`). -/
structure Externals where
  closestPoint : Mesh → Vec3 → Vec3
  intersectLine : Mesh → Vec3 → Vec3 → Vec3
  implicitDistance : Mesh → Vec3 → ℝ
  remesh : Mesh → ℝ → Mesh
  subdivideClean : Mesh → ℝ → Mesh
  pointNormals : Mesh → ℕ → Vec3
  smoothTowards : Mesh → Mesh → Mesh
  windowedSinc : Mesh → Mesh
  sphereSource : ℝ → Vec3 → Mesh
  solidify : Mesh → ℝ → Mesh

/-- Observable outcome of one `ApplySRSFilter` run: the boolean the method
returns, the output dispatched to the model list or the segment (`none` when
nothing was committed), the emitted log, whether some cancellation check read
`True`, whether that happened inside the output dispatch helpers
(`polydataToModel` / `polydataToSegment`, whose `False` return the call sites
discard), and whether the run-start rebuild of the segmentation node's
closed-surface representation (source lines 479-490) was performed. -/
structure RunOutcome where
  result : Bool
  committed : Option (OutputType × Mesh)
  log : List LogMsg
  cancelled : Bool
  cancelledAtDispatch : Bool
  segPrepared : Bool

/-- State threaded between the pipeline stages: the immutable input surface
`inputPolyData`, the working mesh `shrinkModelPD`, the log so far, and the
index of the next cooperative cancellation check. -/
structure PipeState where
  input : Mesh
  working : Mesh
  log : List LogMsg
  k : ℕ

/-- Point lookup `GetPoints().GetPoint(i)`; out-of-range indices return the
origin (VTK would return garbage; no embedded claim depends on it). -/
def Mesh.pt (m : Mesh) (i : ℕ) : Vec3 := m.points.getD i 0

/-- Coordinates of the vertices of one cell, `cell.GetPoints()` in cell order. -/
def cellPointsOf (m : Mesh) (c : List ℕ) : List Vec3 := c.map m.pt

/-- Lengths of the edges between consecutive cell vertices: the loop
`for pa in range(len(pointsArray) - 1)` of the large-face search.  Note that
the pair (last vertex, first vertex) is not among them. -/
def consecEdgeLengths : List Vec3 → List ℝ
  | a :: b :: rest => (a - b).norm :: consecEdgeLengths (b :: rest)
  | _ => []

/-- Maximum of a list of reals, Python's `max(list)`; the source only applies
it to nonempty lists (a triangle yields two consecutive-edge lengths), the
`[]` case returns `0` where Python would raise `ValueError`. -/
def maxD : List ℝ → ℝ
  | [] => 0
  | a :: rest => rest.foldl max a

/-- Indices collected into `largeCellIds`: cells whose longest
consecutive-pair edge exceeds `raycastSearchEdgeLength` (source lines
586-601). -/
def largeCellIdsOf (m : Mesh) (searchEdgeLength : ℝ) : List ℕ :=
  (List.range m.cells.length).filter
    (fun i => maxD (consecEdgeLengths (cellPointsOf m (m.cells.getD i []))) > searchEdgeLength)

/-- Mesh `largeCellsPolyData`: a deep copy of the working mesh in which every
cell whose index is not in `largeCellIds` has been deleted and the deleted
cells removed (source lines 605-613). -/
def largeCellsMeshOf (m : Mesh) (searchEdgeLength : ℝ) : Mesh :=
  { m with cells := (largeCellIdsOf m searchEdgeLength).map (fun i => m.cells.getD i []) }

/-- New location of one working-mesh vertex in a first-pass shrinkwrap
iteration (source lines 543-549): `closestPoint` is the locator answer for
`originPoint`; with a positive offset and a displacement above the `0.01`
noise floor the vertex is placed `offset` short of the closest point along
the displacement direction, otherwise exactly at the closest point. -/
def shrinkwrapNewLocation (offset : ℝ) (originPoint closestPoint : Vec3) : Vec3 :=
  let vector := closestPoint - originPoint
  let vectorLength := vector.norm
  if offset > 0 ∧ vectorLength > 0.01 then
    closestPoint - ((vector.divScalar vectorLength).scale offset)
  else
    closestPoint

/-- One first-pass shrinkwrap iteration over all points (source lines
533-553), with the locator query `cellLocator.FindClosestPoint` over the
input surface supplied by `ext.closestPoint`. -/
def firstShrinkwrapPoints (ext : Externals) (input : Mesh) (offset : ℝ)
    (pts : List Vec3) : List Vec3 :=
  pts.map (fun v => shrinkwrapNewLocation offset v (ext.closestPoint input v))

/-- Neighbor corroboration search of the raycast acceptance loop (source
lines 715-732): scan the cells containing vertex `i` and their vertices for
some `p ≠ i` whose recorded hit is valid and whose hit point lies strictly
within `maxHitDistance` of the hit point of `i`.  `List.any` stops at the
first success exactly as the `pointChanged` early-`break` does. -/
def corroborated (cells : List (List ℕ)) (vloc : ℕ → Bool × Vec3 × ℝ)
    (maxHitDistance : ℝ) (i : ℕ) : Bool :=
  (cells.filter (fun c => i ∈ c)).any
    (fun c => c.any
      (fun p =>
        if p ≠ i ∧ (vloc p).1 = true ∧ ((vloc p).2.1 - (vloc i).2.1).norm < maxHitDistance
        then true else false))

/-- Vertex relocation loop of the raycast stage (source lines 706-732):
vertex `i` moves to its recorded hit point exactly when its hit is valid, its
hit length strictly exceeds `raycastMinLength`, and the corroboration search
succeeds; every other vertex keeps its current position.  `vloc` is the
`vert_location_dict` entry `(valid, hit point, hit length)` of each vertex. -/
def relocateRaycastPoints (cells : List (List ℕ)) (vloc : ℕ → Bool × Vec3 × ℝ)
    (minLength maxHitDistance : ℝ) (pts : List Vec3) : List Vec3 :=
  (List.range pts.length).map
    (fun i =>
      if (vloc i).1 = true ∧ (vloc i).2.2 > minLength ∧
          corroborated cells vloc maxHitDistance i = true
      then (vloc i).2.1
      else pts.getD i 0)

/-- Entry of `vert_location_dict` for one vertex (source lines 664-704):
candidates (vertices within implicit distance `1` of the saved large cells)
are projected along the reversed point normal scaled to `raycastMaxLength`;
the locator's returned global hit point `glo` stays at the zero vector on a
miss, and the recorded validity is `norm glo ≠ 0`.  Vertices that are not
candidates get the sentinel `(False, 0, 0)`.  Points belonging to no face
would raise a `KeyError` later in the source; the embedding makes the
dictionary total with the same sentinel. -/
def pipelineVertLocation (ext : Externals) (input working : Mesh)
    (largePoint : ℕ → Bool) (maxLength : ℝ) (p : ℕ) : Bool × Vec3 × ℝ :=
  if largePoint p = true then
    let normal := (ext.pointNormals working p).scale (-1)
    let a0 := working.pt p
    let a1 := a0 + normal.scale maxLength
    let glo := ext.intersectLine input a0 a1
    (if glo.norm ≠ 0 then true else false, glo, (glo - a0).norm)
  else
    (false, 0, 0)

/-- Early-exit scan of one cell in the cap-removal loop (source lines
806-814): `true` when some vertex of the cell has absolute implicit distance
strictly greater than `maxModelDistance`; the inner `break` makes the source
stop at the first such vertex, which the recursion mirrors. -/
def cellFar (sd : Vec3 → ℝ) (maxModelDistance : ℝ) : List Vec3 → Bool
  | [] => false
  | p :: rest => if |sd p| > maxModelDistance then true else cellFar sd maxModelDistance rest

/-- Cap removal (source lines 797-817): delete every cell having a vertex
farther than `maxModelDistance` from the input surface (in absolute signed
distance `sd`), then compact with `RemoveDeletedCells`; points are kept. -/
def removeCaps (m : Mesh) (sd : Vec3 → ℝ) (maxModelDistance : ℝ) : Mesh :=
  { m with cells := m.cells.filter (fun c => cellFar sd maxModelDistance (cellPointsOf m c) = false) }

/-- Inner-shell vertex of the solidification stage for one point (source
lines 869-896).  `normalsArray` is the list of negated incident face normals;
`dir_vec` is their sum (`numpy` average direction before normalization).
When `dir_vec` has norm zero the source divides `0` by `0.0` in `numpy`,
which yields `nan` coordinates and continues; the embedding returns `none`
for that NaN-contaminated vertex.  Otherwise the normalized direction is
projected onto the first entry of `normalsArray` and the point is offset by
`thickness` times the projected direction. -/
def solidifyInnerPoint (normalsArray : List Vec3) (point : Vec3) (thickness : ℝ) : Option Vec3 :=
  let dirVec := normalsArray.foldl (· + ·) 0
  if dirVec.norm = 0 then none
  else
    let dirVecNorm := dirVec.divScalar dirVec.norm
    let projLength := dirVecNorm.dot (normalsArray.getD 0 0)
    let dirVecFinal := dirVecNorm.scale projLength
    some (point + dirVecFinal.scale thickness)

/-- Voxel-volume dimension of `remeshPolydata` along one axis (source lines
408-412): `int(math.ceil((bmax - bmin) / spacing)) + 1`, clamped below by
`1`.  The bounds and spacing are rationals, as the source computes with
Python floats. -/
def remeshDim (bmin bmax spacing : ℚ) : ℤ :=
  let d := ⌈(bmax - bmin) / spacing⌉ + 1
  if d < 1 then 1 else d

/-- Dimension triple of the `for i in range(3)` loop of `remeshPolydata`,
from the six bounds `(xmin, xmax, ymin, ymax, zmin, zmax)` and the per-axis
spacings. -/
def remeshDims (b : ℚ × ℚ × ℚ × ℚ × ℚ × ℚ) (s : ℚ × ℚ × ℚ) : ℤ × ℤ × ℤ :=
  (remeshDim b.1 b.2.1 s.1,
   remeshDim b.2.2.1 b.2.2.2.1 s.2.1,
   remeshDim b.2.2.2.2.1 b.2.2.2.2.2 s.2.2)

/-- Cooperative cancellation check `if self.cancelRequested: cleanup(); return False`.
The flag is modeled as a function of the check index: the `k`-th executed
check reads `cancel k`, so an externally-set flag is any function that turns
`true` at some index.  On detection the run stops with `False`, commits
nothing, and logs the empty `cleanup()` message. -/
def checkCancel (cancel : ℕ → Bool) (st : PipeState) : Sum RunOutcome PipeState :=
  if cancel st.k = true then
    .inl { result := false, committed := none, log := st.log ++ [LogMsg.cleared],
           cancelled := true, cancelledAtDispatch := false, segPrepared := true }
  else .inr { st with k := st.k + 1 }

/-- First shrinkwrap loop (source lines 522-563), running on the remaining
iteration count: each pass checks cancellation, logs, relaxes every point to
the locator answer, and, except on the final iteration, checks cancellation
again and remeshes at `spacingFirstRemesh`. -/
def firstShrinkwrapLoop (ext : Externals) (opts : Options) (cancel : ℕ → Bool) :
    ℕ → PipeState → Sum RunOutcome PipeState
  | 0, st => .inr st
  | r + 1, st =>
    match checkCancel cancel st with
    | .inl o => .inl o
    | .inr st1 =>
      let st2 := { st1 with
        log := st1.log ++ [LogMsg.shrinkwrapping],
        working := { st1.working with
          points := firstShrinkwrapPoints ext st1.input opts.offsetFirstShrinkwrap
            st1.working.points } }
      if r = 0 then .inr st2
      else
        match checkCancel cancel st2 with
        | .inl o => .inl o
        | .inr st3 =>
          firstShrinkwrapLoop ext opts cancel r
            { st3 with
              log := st3.log ++ [LogMsg.remeshing],
              working := ext.remesh st3.working opts.spacingFirstRemesh }

/-- Raycast stage (source lines 579-732): cancellation check, log, large-face
search on the working mesh, extraction of the large cells, adaptive
subdivision plus cleaning, a second cancellation check, and—only when some
cell was flagged and `raycastMaxLength > 0`—candidate location by implicit
distance to the saved large cells, projection, and relocation of accepted
vertices. -/
def raycastStage (ext : Externals) (opts : Options) (cancel : ℕ → Bool)
    (st : PipeState) : Sum RunOutcome PipeState :=
  match checkCancel cancel st with
  | .inl o => .inl o
  | .inr st1 =>
    let stl := { st1 with log := st1.log ++ [LogMsg.raycasting] }
    let largeIds := largeCellIdsOf stl.working opts.raycastSearchEdgeLength
    let largeCellsPD := largeCellsMeshOf stl.working opts.raycastSearchEdgeLength
    let sub := ext.subdivideClean stl.working opts.raycastOutputEdgeLength
    match checkCancel cancel { stl with working := sub } with
    | .inl o => .inl o
    | .inr st2 =>
      if largeIds ≠ [] ∧ opts.raycastMaxLength > 0 then
        let largePoint : ℕ → Bool := fun p =>
          if |ext.implicitDistance largeCellsPD (st2.working.pt p)| < 1 then true else false
        let vloc := pipelineVertLocation ext st2.input st2.working largePoint
          opts.raycastMaxLength
        .inr { st2 with working := { st2.working with
          points := relocateRaycastPoints st2.working.cells vloc
            opts.raycastMinLength opts.raycastMaxHitDistance st2.working.points } }
      else .inr st2

/-- Second shrinkwrap loop (source lines 750-772), on the remaining
iteration count `iterationsSecondShrinkwrap + 1`: each pass checks
cancellation, remeshes at `spacingSecondRemesh`, and, except on the final
iteration, checks cancellation again and pulls the working mesh toward the
input surface with the two-input smoothing filter. -/
def secondShrinkwrapLoop (ext : Externals) (opts : Options) (cancel : ℕ → Bool) :
    ℕ → PipeState → Sum RunOutcome PipeState
  | 0, st => .inr st
  | r + 1, st =>
    match checkCancel cancel st with
    | .inl o => .inl o
    | .inr st1 =>
      let st2 := { st1 with
        log := st1.log ++ [LogMsg.remeshing],
        working := ext.remesh st1.working opts.spacingSecondRemesh }
      if r = 0 then .inr st2
      else
        match checkCancel cancel st2 with
        | .inl o => .inl o
        | .inr st3 =>
          secondShrinkwrapLoop ext opts cancel r
            { st3 with
              log := st3.log ++ [LogMsg.shrinkwrapping],
              working := ext.smoothTowards st3.working st3.input }

/-- Second shrinkwrap stage: the loop above followed by the windowed-sinc
low-pass filter `smoothPolydata` (source line 774). -/
def secondShrinkwrapStage (ext : Externals) (opts : Options) (cancel : ℕ → Bool)
    (st : PipeState) : Sum RunOutcome PipeState :=
  match secondShrinkwrapLoop ext opts cancel (opts.iterationsSecondShrinkwrap + 1) st with
  | .inl o => .inl o
  | .inr st' => .inr { st' with working := ext.windowedSinc st'.working }

/-- Cap-removal stage (source lines 790-817): cancellation check, log, then
deletion of every cell with a vertex beyond `maxModelDistance` in absolute
implicit distance to the input surface. -/
def capsStage (ext : Externals) (opts : Options) (cancel : ℕ → Bool)
    (st : PipeState) : Sum RunOutcome PipeState :=
  match checkCancel cancel st with
  | .inl o => .inl o
  | .inr st1 =>
    .inr { st1 with
      log := st1.log ++ [LogMsg.removingCaps],
      working := removeCaps st1.working (ext.implicitDistance st1.input)
        opts.maxModelDistance }

/-- Solidification stage (source lines 833-955): cancellation check, log, and
the assembly of the closed solid; the vertex-level inner-offset arithmetic of
the assembly is embedded as `solidifyInnerPoint`, the VTK-composed assembly
is the collaborator `ext.solidify`. -/
def solidifyStage (ext : Externals) (opts : Options) (cancel : ℕ → Bool)
    (st : PipeState) : Sum RunOutcome PipeState :=
  match checkCancel cancel st with
  | .inl o => .inl o
  | .inr st1 =>
    .inr { st1 with
      log := st1.log ++ [LogMsg.solidifying],
      working := ext.solidify st1.working opts.solidificationThickness }

/-- Terminal commit through `polydataToModel` / `polydataToSegment` followed
by the caller's `cleanup(); return True`.  Both helpers first check the
cancellation flag and return `False` after `cleanup()` when it is set, but
every call site discards that boolean and still returns `True`: a
cancellation detected here yields result `true` with no committed output. -/
def commitAndFinish (cancel : ℕ → Bool) (typ : OutputType) (msg : LogMsg)
    (mesh : Mesh) (st : PipeState) : RunOutcome :=
  if cancel st.k = true then
    { result := true, committed := none, log := st.log ++ [LogMsg.cleared, LogMsg.cleared],
      cancelled := true, cancelledAtDispatch := true, segPrepared := true }
  else
    { result := true, committed := some (typ, mesh), log := st.log ++ [msg, LogMsg.cleared],
      cancelled := false, cancelledAtDispatch := false, segPrepared := true }

/-- Dispatch of a terminal mesh on the configured output type (the repeated
`if outputType == SEGMENTATION ... elif MODEL ... else error` blocks of the
source); an unknown output type logs an error and returns `False` without
committing. -/
def dispatchOutput (cancel : ℕ → Bool) (typ : OutputType) (mesh : Mesh)
    (st : PipeState) : RunOutcome :=
  match typ with
  | .SEGMENTATION => commitAndFinish cancel .SEGMENTATION LogMsg.updatingSegmentation mesh st
  | .MODEL => commitAndFinish cancel .MODEL LogMsg.creatingModel mesh st
  | .UNKNOWN =>
    { result := false, committed := none, log := st.log ++ [LogMsg.errorUnknownOutputType],
      cancelled := false, cancelledAtDispatch := false, segPrepared := true }

/-- Bounds of a mesh, `polydata.GetBounds` as `(xmin, xmax, ymin, ymax, zmin, zmax)`;
the empty mesh yields VTK's uninitialized bounds `(1, -1, 1, -1, 1, -1)`. -/
def meshBounds (m : Mesh) : ℝ × ℝ × ℝ × ℝ × ℝ × ℝ :=
  match m.points with
  | [] => (1, -1, 1, -1, 1, -1)
  | p :: rest =>
    (rest.foldl (fun a q => min a q.x) p.x,
     rest.foldl (fun a q => max a q.x) p.x,
     rest.foldl (fun a q => min a q.y) p.y,
     rest.foldl (fun a q => max a q.y) p.y,
     rest.foldl (fun a q => min a q.z) p.z,
     rest.foldl (fun a q => max a q.z) p.z)

/-- Initial working mesh (source lines 493-512): a cleaned sphere whose
radius is the largest bounding-box dimension of the input surface and whose
center is the bounding-box center. -/
def initialWorkingMesh (ext : Externals) (input : Mesh) : Mesh :=
  let b := meshBounds input
  let d0 := b.2.1 - b.1
  let d1 := b.2.2.2.1 - b.2.2.1
  let d2 := b.2.2.2.2.2 - b.2.2.2.2.1
  let center : Vec3 := ⟨b.1 + d0 / 2, b.2.2.1 + d1 / 2, b.2.2.2.2.1 + d2 / 2⟩
  let radius := max d0 (max d1 d2)
  ext.sphereSource radius center

/-- Full `SRSFilterLogic.ApplySRSFilter` run.  `segSurface` is the
closed-surface representation fetched from the segment after the run-start
rebuild of the segmentation node (source lines 479-490, recorded in
`segPrepared`); the stages run in fixed order with a terminal dispatch at the
configured filter mode, and any filter mode falling through every branch
logs `unknown filterMode.` and returns `False`. -/
def ApplySRSFilter (ext : Externals) (opts : Options) (cancel : ℕ → Bool)
    (segSurface : Mesh) : RunOutcome :=
  let input := segSurface
  let st0 : PipeState :=
    { input := input, working := initialWorkingMesh ext input, log := [LogMsg.filtering], k := 0 }
  match firstShrinkwrapLoop ext opts cancel opts.iterationsFirstShrinkwrap st0 with
  | .inl o => o
  | .inr st1 =>
    if opts.filterMode = .CONVEXHULL then dispatchOutput cancel opts.outputType st1.working st1
    else
      match raycastStage ext opts cancel st1 with
      | .inl o => o
      | .inr st2 =>
        if opts.filterMode = .RAYCASTS then dispatchOutput cancel opts.outputType st2.working st2
        else
          match secondShrinkwrapStage ext opts cancel st2 with
          | .inl o => o
          | .inr st3 =>
            if opts.filterMode = .DEEPHULL then
              dispatchOutput cancel opts.outputType st3.working st3
            else
              match capsStage ext opts cancel st3 with
              | .inl o => o
              | .inr st4 =>
                if opts.filterMode = .NONMANIFOLD then
                  match opts.outputType with
                  | .SEGMENTATION =>
                    { result := true, committed := none,
                      log := st4.log ++ [LogMsg.errorSegNonmanifold, LogMsg.cleared],
                      cancelled := false, cancelledAtDispatch := false, segPrepared := true }
                  | .MODEL => commitAndFinish cancel .MODEL LogMsg.creatingModel st4.working st4
                  | .UNKNOWN =>
                    { result := false, committed := none,
                      log := st4.log ++ [LogMsg.errorUnknownOutputType],
                      cancelled := false, cancelledAtDispatch := false, segPrepared := true }
                else
                  match solidifyStage ext opts cancel st4 with
                  | .inl o => o
                  | .inr st5 =>
                    if opts.filterMode = .SOLIDIFIED then
                      dispatchOutput cancel opts.outputType st5.working st5
                    else
                      { result := false, committed := none,
                        log := st5.log ++ [LogMsg.errorUnknownFilterMode],
                        cancelled := false, cancelledAtDispatch := false, segPrepared := true }

/-! ### Concrete instances used by witnesses and counterexamples -/

/-- Empty mesh. -/
def mesh0 : Mesh := { points := [], cells := [] }

/-- Trivial external collaborators: every query answers a constant and every
external filter returns its input unchanged. -/
def ext0 : Externals where
  closestPoint := fun _ _ => 0
  intersectLine := fun _ _ _ => 0
  implicitDistance := fun _ _ => 0
  remesh := fun m _ => m
  subdivideClean := fun m _ => m
  pointNormals := fun _ _ => 0
  smoothTowards := fun m _ => m
  windowedSinc := fun m => m
  sphereSource := fun _ _ => mesh0
  solidify := fun m _ => m

/-- External collaborators whose nearest-point locator always answers
`(3, 4, 0)`. -/
def extC5 : Externals := { ext0 with closestPoint := fun _ _ => ⟨3, 4, 0⟩ }

/-- Configuration with the source's default numbers, one first-shrinkwrap
iteration, zero second-shrinkwrap iterations, and the invalid combination
filter mode NONMANIFOLD with output type SEGMENTATION. -/
def opts0 : Options where
  outputType := .SEGMENTATION
  filterMode := .NONMANIFOLD
  offsetFirstShrinkwrap := 15
  spacingFirstRemesh := 10
  spacingSecondRemesh := 1
  iterationsFirstShrinkwrap := 1
  iterationsSecondShrinkwrap := 0
  raycastSearchEdgeLength := 20
  raycastOutputEdgeLength := 2
  raycastMaxHitDistance := 2
  raycastMaxLength := 100
  raycastMinLength := 0
  maxModelDistance := 7/10
  solidificationThickness := 3/2
  smoothingFactor := 1/5

/-- Same configuration with filter mode CONVEXHULL and output type MODEL. -/
def optsCH : Options := { opts0 with filterMode := .CONVEXHULL, outputType := .MODEL }

/-- Same configuration with filter mode CONVEXHULL and an unknown output
type string. -/
def optsCHU : Options := { opts0 with filterMode := .CONVEXHULL, outputType := .UNKNOWN }

/-- Triangle whose two consecutive-pair edges have lengths 3 and 4 while its
closing edge (last vertex back to first) has length 5. -/
def meshC4 : Mesh := { points := [⟨0, 0, 0⟩, ⟨3, 0, 0⟩, ⟨3, 4, 0⟩], cells := [[0, 1, 2]] }

/-- Hit records for the raycast acceptance counterexample: vertex 0 has a
valid hit of length 2 at `(5,0,0)`, vertex 1 a valid hit of length 1/2 at
`(5,1,0)` (too short to be accepted itself), and every other vertex the miss
sentinel. -/
def vlocC3 : ℕ → Bool × Vec3 × ℝ := fun p =>
  if p = 0 then (true, ⟨5, 0, 0⟩, 2)
  else if p = 1 then (true, ⟨5, 1, 0⟩, 1/2)
  else (false, 0, 0)

/-- Positions of the three vertices of the counterexample patch. -/
def ptsC3 : List Vec3 := [⟨0, 0, 0⟩, ⟨10, 0, 0⟩, ⟨0, 10, 0⟩]

/-- Initial pipe state over the empty mesh. -/
def pst0 : PipeState := { input := mesh0, working := mesh0, log := [], k := 0 }

/-- State after the cap-removal stage applied to `pst0` with `ext0`. -/
def pst1 : PipeState :=
  { input := mesh0
  , working := removeCaps mesh0 (ext0.implicitDistance mesh0) opts0.maxModelDistance
  , log := [LogMsg.removingCaps]
  , k := 1 }

/-- State after the raycast stage applied to `pst0` with `ext0`. -/
def pstRc : PipeState :=
  { input := mesh0
  , working := ext0.subdivideClean mesh0 opts0.raycastOutputEdgeLength
  , log := [LogMsg.raycasting]
  , k := 2 }

/-! ### Helper lemmas about the embedded vector arithmetic -/

theorem Vec3.add_def (a b : Vec3) : a + b = ⟨a.x + b.x, a.y + b.y, a.z + b.z⟩ := rfl

theorem Vec3.sub_def (a b : Vec3) : a - b = ⟨a.x - b.x, a.y - b.y, a.z - b.z⟩ := rfl

theorem Vec3.zero_def : (0 : Vec3) = ⟨0, 0, 0⟩ := rfl

theorem Vec3.norm_eval (v : Vec3) (b : ℝ) (hb : 0 ≤ b) (h : v.dot v = b ^ 2) :
    v.norm = b := by
  rw [Vec3.norm, h, Real.sqrt_sq hb]

theorem Vec3.norm_zero : (0 : Vec3).norm = 0 :=
  Vec3.norm_eval _ 0 le_rfl (by simp [Vec3.dot, Vec3.zero_def])

theorem iteTrueFalseEq (P : Prop) [Decidable P] :
    ((if P then true else false) = true) ↔ P := by
  split <;> simp_all

theorem getD_map_lt {α β : Type} (f : α → β) (l : List α) (i : ℕ) (h : i < l.length)
    (dB : β) (dA : α) : (l.map f).getD i dB = f (l.getD i dA) := by
  induction l generalizing i with
  | nil => simp at h
  | cons a t ih =>
    cases i with
    | zero => rfl
    | succ n =>
      simp only [List.map_cons, List.getD_cons_succ]
      exact ih n (by simpa using h)

theorem getD_range_map {β : Type} (f : ℕ → β) (n i : ℕ) (h : i < n) (d : β) :
    ((List.range n).map f).getD i d = f i := by
  rw [getD_map_lt f _ i (by simpa using h) d 0]
  congr 1
  rw [List.getD_eq_getElem _ _ (by simpa using h)]
  simp

/-- Early-exit scan characterization: `cellFar` answers `true` exactly when
some vertex of the cell is beyond the distance threshold. -/
theorem cellFar_eq_true_iff (sd : Vec3 → ℝ) (d : ℝ) (pts : List Vec3) :
    cellFar sd d pts = true ↔ ∃ p ∈ pts, |sd p| > d := by
  induction pts with
  | nil => simp [cellFar]
  | cons a t ih =>
    unfold cellFar
    by_cases h : |sd a| > d
    · rw [if_pos h]
      exact ⟨fun _ => ⟨a, by simp, h⟩, fun _ => rfl⟩
    · rw [if_neg h, ih]
      constructor
      · rintro ⟨p, hp, hgt⟩
        exact ⟨p, by simp [hp], hgt⟩
      · rintro ⟨p, hp, hgt⟩
        rcases List.mem_cons.mp hp with rfl | hp'
        · exact absurd hgt h
        · exact ⟨p, hp', hgt⟩

/-- C7: the cap-removal stage keeps a face exactly when the face occurs in
the working mesh and every one of its vertices lies within `maxModelDistance`
of the input surface in absolute signed distance; consequently any face with
a vertex beyond `maxModelDistance` is deleted. -/
theorem capRemoval_keeps_iff (m : Mesh) (sd : Vec3 → ℝ) (maxModelDistance : ℝ)
    (c : List ℕ) :
    (c ∈ (removeCaps m sd maxModelDistance).cells ↔
      c ∈ m.cells ∧ ∀ p ∈ cellPointsOf m c, |sd p| ≤ maxModelDistance) ∧
    ((∃ p ∈ cellPointsOf m c, |sd p| > maxModelDistance) →
      c ∉ (removeCaps m sd maxModelDistance).cells) := by
  have hmain : c ∈ (removeCaps m sd maxModelDistance).cells ↔
      c ∈ m.cells ∧ ∀ p ∈ cellPointsOf m c, |sd p| ≤ maxModelDistance := by
    unfold removeCaps
    simp only [List.mem_filter, decide_eq_true_eq]
    constructor
    · rintro ⟨hm, hf⟩
      refine ⟨hm, fun p hp => ?_⟩
      by_contra hgt
      rw [(cellFar_eq_true_iff sd maxModelDistance (cellPointsOf m c)).mpr
        ⟨p, hp, not_le.mp hgt⟩] at hf
      exact Bool.noConfusion hf
    · rintro ⟨hm, hall⟩
      refine ⟨hm, ?_⟩
      rw [Bool.eq_false_iff]
      intro htrue
      obtain ⟨p, hp, hgt⟩ := (cellFar_eq_true_iff sd maxModelDistance _).mp htrue
      exact absurd (hall p hp) (not_le.mpr hgt)
  refine ⟨hmain, ?_⟩
  rintro ⟨p, hp, hgt⟩ hc
  exact absurd ((hmain.mp hc).2 p hp) (not_le.mpr hgt)

/-- C8: along each axis the voxel dimension of `remeshPolydata` equals
`ceil(extent / spacing) + 1`, and whenever that value falls below `1` the
dimension is clamped to exactly `1`. -/
theorem remeshDim_spec (bmin bmax spacing : ℚ) (_hs : 0 < spacing) :
    (1 ≤ ⌈(bmax - bmin) / spacing⌉ + 1 →
      remeshDim bmin bmax spacing = ⌈(bmax - bmin) / spacing⌉ + 1) ∧
    (⌈(bmax - bmin) / spacing⌉ + 1 < 1 → remeshDim bmin bmax spacing = 1) := by
  constructor
  · intro h
    show (if ⌈(bmax - bmin) / spacing⌉ + 1 < 1 then 1 else ⌈(bmax - bmin) / spacing⌉ + 1) = _
    rw [if_neg (by omega)]
  · intro h
    show (if ⌈(bmax - bmin) / spacing⌉ + 1 < 1 then 1 else ⌈(bmax - bmin) / spacing⌉ + 1) = 1
    rw [if_pos h]

/-- Witness for C8: a degenerate inverted-bounds axis clamps to 1, a regular
axis gets `ceil(extent / spacing) + 1 = 4`. -/
theorem remeshDim_spec_witness : remeshDim 1 (-2) 1 = 1 ∧ remeshDim 0 5 2 = 4 := by
  have h1 : (⌈((-2 : ℚ) - 1) / 1⌉ : ℤ) = -3 := by
    rw [Int.ceil_eq_iff] <;> norm_num
  have h2 : (⌈((5 : ℚ) - 0) / 2⌉ : ℤ) = 3 := by
    rw [Int.ceil_eq_iff] <;> norm_num
  constructor
  · exact (remeshDim_spec 1 (-2) 1 (by norm_num)).2 (by rw [h1]; norm_num)
  · rw [(remeshDim_spec 0 5 2 (by norm_num)).1 (by rw [h2]; norm_num), h2]
    norm_num

/-- C4 (failing input): the triangle `meshC4` has edges of lengths 3 and 4
between consecutive vertex pairs and a closing edge (last vertex back to
first) of length 5.  With `raycastSearchEdgeLength = 9/2` the claim demands
the face be flagged (its longest edge, the closing edge, measures `5 > 9/2`),
but the source's loop `for pa in range(len(pointsArray) - 1)` never measures
the closing edge, so `largeCellIds` stays empty. -/
theorem largeFace_misses_closing_edge :
    largeCellIdsOf meshC4 (9/2) = [] ∧
      ((⟨3, 4, 0⟩ : Vec3) - (⟨0, 0, 0⟩ : Vec3)).norm = 5 ∧ ((5 : ℝ) > 9/2) := by
  have h01 : ((⟨0, 0, 0⟩ : Vec3) - (⟨3, 0, 0⟩ : Vec3)).norm = 3 :=
    Vec3.norm_eval _ 3 (by norm_num) (by simp [Vec3.sub_def, Vec3.dot]; norm_num)
  have h12 : ((⟨3, 0, 0⟩ : Vec3) - (⟨3, 4, 0⟩ : Vec3)).norm = 4 :=
    Vec3.norm_eval _ 4 (by norm_num) (by simp [Vec3.sub_def, Vec3.dot]; norm_num)
  have h20 : ((⟨3, 4, 0⟩ : Vec3) - (⟨0, 0, 0⟩ : Vec3)).norm = 5 :=
    Vec3.norm_eval _ 5 (by norm_num) (by simp [Vec3.sub_def, Vec3.dot]; norm_num)
  refine ⟨?_, h20, by norm_num⟩
  have hmax : maxD (consecEdgeLengths (cellPointsOf meshC4 (meshC4.cells.getD 0 []))) = 4 := by
    show maxD [((⟨0, 0, 0⟩ : Vec3) - ⟨3, 0, 0⟩).norm, ((⟨3, 0, 0⟩ : Vec3) - ⟨3, 4, 0⟩).norm] = 4
    rw [h01, h12]
    show max (3 : ℝ) 4 = 4
    exact max_eq_right (by norm_num)
  unfold largeCellIdsOf
  rw [List.filter_eq_nil_iff]
  intro i hi
  have : i = 0 := by
    have h1 := List.mem_range.mp hi
    have h2 : meshC4.cells.length = 1 := rfl
    omega
  subst this
  simp only [decide_eq_true_eq, hmax]
  norm_num

/-- C5: in a first-pass shrinkwrap iteration, each vertex `v` with closest
input-surface point `c` moves to `c - ((c - v) / |c - v|) * offset` when the
offset is positive and the displacement magnitude exceeds the `0.01` noise
floor, and is set exactly to `c` otherwise, so the division by the
displacement norm is only performed above the noise floor. -/
theorem firstShrinkwrap_vertex_update (ext : Externals) (input : Mesh) (offset : ℝ)
    (pts : List Vec3) (i : ℕ) (h : i < pts.length) :
    (0 < offset ∧ (ext.closestPoint input (pts.getD i 0) - pts.getD i 0).norm > 0.01 →
      (firstShrinkwrapPoints ext input offset pts).getD i 0 =
        ext.closestPoint input (pts.getD i 0) -
          (((ext.closestPoint input (pts.getD i 0) - pts.getD i 0).divScalar
              ((ext.closestPoint input (pts.getD i 0) - pts.getD i 0).norm)).scale offset)) ∧
    (¬(0 < offset ∧ (ext.closestPoint input (pts.getD i 0) - pts.getD i 0).norm > 0.01) →
      (firstShrinkwrapPoints ext input offset pts).getD i 0 =
        ext.closestPoint input (pts.getD i 0)) := by
  have hm : (firstShrinkwrapPoints ext input offset pts).getD i 0 =
      shrinkwrapNewLocation offset (pts.getD i 0) (ext.closestPoint input (pts.getD i 0)) :=
    getD_map_lt _ pts i h 0 0
  constructor
  · intro hc
    rw [hm]
    show (if offset > 0 ∧ (ext.closestPoint input (pts.getD i 0) - pts.getD i 0).norm > 0.01
      then _ else _) = _
    rw [if_pos hc]
  · intro hc
    rw [hm]
    show (if offset > 0 ∧ (ext.closestPoint input (pts.getD i 0) - pts.getD i 0).norm > 0.01
      then _ else _) = _
    rw [if_neg hc]

/-- Witness for C5: with offset 2 and a single vertex at the origin whose
closest surface point is `(3,4,0)` (distance 5), the vertex moves to
`(3,4,0) - ((3,4,0)/5)*2 = (9/5, 12/5, 0)`. -/
theorem firstShrinkwrap_vertex_update_witness :
    0 < ([(⟨0, 0, 0⟩ : Vec3)] : List Vec3).length ∧
    (firstShrinkwrapPoints extC5 mesh0 2 [⟨0, 0, 0⟩]).getD 0 0 = ⟨9/5, 12/5, 0⟩ := by
  have hlen : 0 < ([(⟨0, 0, 0⟩ : Vec3)] : List Vec3).length := by norm_num
  refine ⟨hlen, ?_⟩
  have hn : ((extC5.closestPoint mesh0 (([(⟨0, 0, 0⟩ : Vec3)] : List Vec3).getD 0 0)) -
      ([(⟨0, 0, 0⟩ : Vec3)] : List Vec3).getD 0 0).norm = 5 := by
    show ((⟨3, 4, 0⟩ : Vec3) - ⟨0, 0, 0⟩).norm = 5
    exact Vec3.norm_eval _ 5 (by norm_num) (by simp [Vec3.sub_def, Vec3.dot]; norm_num)
  have h := (firstShrinkwrap_vertex_update extC5 mesh0 2 [⟨0, 0, 0⟩] 0 hlen).1
    ⟨by norm_num, by rw [hn]; norm_num⟩
  rw [h, hn]
  show ((⟨3, 4, 0⟩ : Vec3)) -
      ((((⟨3, 4, 0⟩ : Vec3) - ⟨0, 0, 0⟩).divScalar 5).scale 2) = ⟨9/5, 12/5, 0⟩
  simp only [Vec3.sub_def, Vec3.divScalar, Vec3.scale, Vec3.mk.injEq]
  norm_num

/-- C6 (counterexample): a vertex whose two negated incident face normals
`(0,0,1)` and `(0,0,-1)` sum to the zero vector.  The source computes
`dir_vec / np.linalg.norm(dir_vec)` with `norm = 0`; `numpy` evaluates `0/0`
to `nan` and the inner vertex gets NaN coordinates (here modeled by `none`):
there is no clamp, skip or leave-unmoved fallback producing a clean
geometric point. -/
theorem solidify_zero_normal_nan :
    solidifyInnerPoint [⟨0, 0, 1⟩, ⟨0, 0, -1⟩] ⟨0, 0, 0⟩ (3/2) = none := by
  have hsum : (([⟨0, 0, 1⟩, ⟨0, 0, -1⟩] : List Vec3).foldl (· + ·) 0).norm = 0 := by
    show (((0 : Vec3) + ⟨0, 0, 1⟩) + ⟨0, 0, -1⟩).norm = 0
    exact Vec3.norm_eval _ 0 le_rfl
      (by simp [Vec3.add_def, Vec3.zero_def, Vec3.dot])
  unfold solidifyInnerPoint
  rw [if_pos hsum]

/-- C6 (amended): whenever the negated incident face normals of a vertex sum
to the zero vector, the solidification inner-vertex computation yields the
NaN-contaminated value (`none`): the run does not abort with an exception,
but no local fallback keeps the coordinates finite. -/
theorem solidify_zero_normal_amended (normalsArray : List Vec3) (point : Vec3)
    (thickness : ℝ) (h : normalsArray.foldl (· + ·) 0 = (0 : Vec3)) :
    solidifyInnerPoint normalsArray point thickness = none := by
  unfold solidifyInnerPoint
  rw [h, if_pos Vec3.norm_zero]

/-- Witness for the amended C6 at another degenerate normal pair. -/
theorem solidify_zero_normal_amended_witness :
    solidifyInnerPoint [⟨1, 0, 0⟩, ⟨-1, 0, 0⟩] ⟨1, 2, 3⟩ 1 = none :=
  solidify_zero_normal_amended _ _ _ (by
    show ((0 : Vec3) + ⟨1, 0, 0⟩) + ⟨-1, 0, 0⟩ = (0 : Vec3)
    simp [Vec3.add_def, Vec3.zero_def])

/-- C3 (amended): a vertex is relocated to its recorded hit point exactly
when its own hit is valid, its hit length strictly exceeds
`raycastMinLength`, and some vertex sharing a cell with it has a valid
(nonzero) hit — regardless of whether that neighbor's hit is itself
accepted — whose hit point lies strictly within `raycastMaxHitDistance`;
every other vertex keeps its current position. -/
theorem raycastRelocation_iff (cells : List (List ℕ)) (vloc : ℕ → Bool × Vec3 × ℝ)
    (minLength maxHitDistance : ℝ) (pts : List Vec3) (i : ℕ) (h : i < pts.length) :
    ((relocateRaycastPoints cells vloc minLength maxHitDistance pts).getD i 0 =
      if (vloc i).1 = true ∧ (vloc i).2.2 > minLength ∧
          corroborated cells vloc maxHitDistance i = true
      then (vloc i).2.1 else pts.getD i 0) ∧
    (corroborated cells vloc maxHitDistance i = true ↔
      ∃ c ∈ cells, i ∈ c ∧ ∃ p ∈ c, p ≠ i ∧ (vloc p).1 = true ∧
        ((vloc p).2.1 - (vloc i).2.1).norm < maxHitDistance) := by
  constructor
  · exact getD_range_map _ pts.length i h 0
  · unfold corroborated
    rw [List.any_eq_true]
    constructor
    · rintro ⟨c, hc, hcany⟩
      rw [List.mem_filter] at hc
      obtain ⟨hcm, hcin⟩ := hc
      rw [List.any_eq_true] at hcany
      obtain ⟨p, hp, hcond⟩ := hcany
      rw [iteTrueFalseEq] at hcond
      exact ⟨c, hcm, by simpa using hcin, p, hp, hcond⟩
    · rintro ⟨c, hcm, hic, p, hp, hcond⟩
      refine ⟨c, ?_, ?_⟩
      · rw [List.mem_filter]
        exact ⟨hcm, by simpa⟩
      · rw [List.any_eq_true]
        exact ⟨p, hp, (iteTrueFalseEq _).mpr hcond⟩

/-- Witness for the amended C3: with no cells and only miss records, the
single vertex keeps its position. -/
theorem raycastRelocation_iff_witness :
    (relocateRaycastPoints [] (fun _ => (false, 0, 0)) 0 0 [⟨1, 2, 3⟩]).getD 0 0 =
      ⟨1, 2, 3⟩ := by
  have h := (raycastRelocation_iff [] (fun _ => (false, 0, 0)) 0 0 [⟨1, 2, 3⟩] 0
    (by norm_num)).1
  rw [h, if_neg]
  · rfl
  · rintro ⟨h1, -, -⟩
    exact Bool.noConfusion h1

/-- C3 (counterexample): on a single triangle, vertex 0 (valid hit at
`(5,0,0)`, length 2 above the minimum length 1) is relocated to its hit
point because neighbor vertex 1 has a valid hit at `(5,1,0)` within the max
hit distance 2 — even though vertex 1's hit is itself rejected (length 1/2
is not above the minimum length 1, so vertex 1 stays put, i.e. no adjacent
vertex has an *accepted* hit).  Under the claim's rule vertex 0 would have
to keep its position; the code moves it. -/
theorem raycastRelocation_counterexample :
    relocateRaycastPoints [[0, 1, 2]] vlocC3 1 2 ptsC3 =
      [⟨5, 0, 0⟩, ⟨10, 0, 0⟩, ⟨0, 10, 0⟩] ∧ (vlocC3 1).2.2 ≤ 1 := by
  have hd : ((vlocC3 1).2.1 - (vlocC3 0).2.1).norm = 1 := by
    show ((⟨5, 1, 0⟩ : Vec3) - ⟨5, 0, 0⟩).norm = 1
    exact Vec3.norm_eval _ 1 (by norm_num) (by simp [Vec3.sub_def, Vec3.dot])
  have hc0 : corroborated [[0, 1, 2]] vlocC3 2 0 = true := by
    unfold corroborated
    rw [List.any_eq_true]
    refine ⟨[0, 1, 2], ?_, ?_⟩
    · rw [List.mem_filter]
      exact ⟨by simp, by simp⟩
    · rw [List.any_eq_true]
      refine ⟨1, by simp, ?_⟩
      rw [iteTrueFalseEq]
      refine ⟨by decide, rfl, ?_⟩
      rw [hd]
      norm_num
  refine ⟨?_, by show (1/2 : ℝ) ≤ 1; norm_num⟩
  unfold relocateRaycastPoints
  rw [show List.range ptsC3.length = [0, 1, 2] from rfl]
  simp only [List.map_cons, List.map_nil]
  have hn1 : ¬((vlocC3 1).1 = true ∧ (vlocC3 1).2.2 > 1 ∧
      corroborated [[0, 1, 2]] vlocC3 2 1 = true) := by
    rintro ⟨-, h2, -⟩
    rw [show (vlocC3 1).2.2 = 1/2 from rfl] at h2
    norm_num at h2
  have hn2 : ¬((vlocC3 2).1 = true ∧ (vlocC3 2).2.2 > 1 ∧
      corroborated [[0, 1, 2]] vlocC3 2 2 = true) := by
    rintro ⟨h1, -, -⟩
    exact Bool.noConfusion (show false = true from h1)
  have hp0 : (vlocC3 0).1 = true ∧ (vlocC3 0).2.2 > 1 ∧
      corroborated [[0, 1, 2]] vlocC3 2 0 = true := by
    refine ⟨rfl, ?_, hc0⟩
    show (2 : ℝ) > 1
    norm_num
  rw [if_pos hp0, if_neg hn1, if_neg hn2]
  rfl

/-- Every early exit of a cancellation check carries the cancellation
outcome: result `False`, nothing committed, cancellation recorded outside
the dispatch helpers. -/
theorem checkCancel_inl (cancel : ℕ → Bool) (st : PipeState) (o : RunOutcome)
    (h : checkCancel cancel st = .inl o) :
    o.result = false ∧ o.committed = none ∧ o.cancelled = true ∧
      o.cancelledAtDispatch = false ∧ o.segPrepared = true := by
  unfold checkCancel at h
  split at h
  · injection h with h
    subst h
    exact ⟨rfl, rfl, rfl, rfl, rfl⟩
  · exact Sum.noConfusion h

/-- A passed cancellation check only advances the check counter. -/
theorem checkCancel_inr (cancel : ℕ → Bool) (st st1 : PipeState)
    (h : checkCancel cancel st = .inr st1) :
    st1 = { st with k := st.k + 1 } := by
  unfold checkCancel at h
  split at h
  · exact Sum.noConfusion h
  · injection h with h
    subst h
    rfl

/-- The first shrinkwrap loop never touches the input surface. -/
theorem firstLoop_inr_input (ext : Externals) (opts : Options) (cancel : ℕ → Bool) :
    ∀ n st st', firstShrinkwrapLoop ext opts cancel n st = .inr st' →
      st'.input = st.input := by
  intro n
  induction n with
  | zero =>
    intro st st' h
    injection h with h
    subst h
    rfl
  | succ r ih =>
    intro st st' h
    rw [firstShrinkwrapLoop] at h
    cases hc : checkCancel cancel st with
    | inl o => rw [hc] at h; exact Sum.noConfusion h
    | inr st1 =>
      rw [hc] at h
      have h1 := checkCancel_inr cancel st st1 hc
      subst h1
      simp only at h
      split at h
      · injection h with h
        subst h
        rfl
      · cases hc2 : checkCancel cancel _ with
        | inl o =>
          rw [hc2] at h
          exact Sum.noConfusion h
        | inr st3 =>
          rw [hc2] at h
          simp only [] at h
          have h3 := checkCancel_inr cancel _ st3 hc2
          subst h3
          have hh := ih _ _ h
          exact hh.trans rfl

/-- Cancellation exits of the first shrinkwrap loop carry the cancellation
outcome. -/
theorem firstLoop_inl_cancel (ext : Externals) (opts : Options) (cancel : ℕ → Bool) :
    ∀ n st o, firstShrinkwrapLoop ext opts cancel n st = .inl o →
      o.result = false ∧ o.committed = none ∧ o.cancelled = true ∧
        o.cancelledAtDispatch = false ∧ o.segPrepared = true := by
  intro n
  induction n with
  | zero =>
    intro st o h
    exact Sum.noConfusion h
  | succ r ih =>
    intro st o h
    rw [firstShrinkwrapLoop] at h
    cases hc : checkCancel cancel st with
    | inl o1 =>
      rw [hc] at h
      simp only [] at h
      injection h with h
      subst h
      exact checkCancel_inl cancel st o1 hc
    | inr st1 =>
      rw [hc] at h
      simp only [] at h
      split at h
      · exact Sum.noConfusion h
      · cases hc2 : checkCancel cancel _ with
        | inl o2 =>
          rw [hc2] at h
          simp only [] at h
          injection h with h
          subst h
          exact checkCancel_inl cancel _ o2 hc2
        | inr st3 =>
          rw [hc2] at h
          simp only [] at h
          exact ih _ _ h

/-- The second shrinkwrap loop never touches the input surface. -/
theorem secondLoop_inr_input (ext : Externals) (opts : Options) (cancel : ℕ → Bool) :
    ∀ n st st', secondShrinkwrapLoop ext opts cancel n st = .inr st' →
      st'.input = st.input := by
  intro n
  induction n with
  | zero =>
    intro st st' h
    injection h with h
    subst h
    rfl
  | succ r ih =>
    intro st st' h
    rw [secondShrinkwrapLoop] at h
    cases hc : checkCancel cancel st with
    | inl o => rw [hc] at h; exact Sum.noConfusion h
    | inr st1 =>
      rw [hc] at h
      have h1 := checkCancel_inr cancel st st1 hc
      subst h1
      simp only [] at h
      split at h
      · injection h with h
        subst h
        rfl
      · cases hc2 : checkCancel cancel _ with
        | inl o =>
          rw [hc2] at h
          exact Sum.noConfusion h
        | inr st3 =>
          rw [hc2] at h
          simp only [] at h
          have h3 := checkCancel_inr cancel _ st3 hc2
          subst h3
          have hh := ih _ _ h
          exact hh.trans rfl

/-- Cancellation exits of the second shrinkwrap loop carry the cancellation
outcome. -/
theorem secondLoop_inl_cancel (ext : Externals) (opts : Options) (cancel : ℕ → Bool) :
    ∀ n st o, secondShrinkwrapLoop ext opts cancel n st = .inl o →
      o.result = false ∧ o.committed = none ∧ o.cancelled = true ∧
        o.cancelledAtDispatch = false ∧ o.segPrepared = true := by
  intro n
  induction n with
  | zero =>
    intro st o h
    exact Sum.noConfusion h
  | succ r ih =>
    intro st o h
    rw [secondShrinkwrapLoop] at h
    cases hc : checkCancel cancel st with
    | inl o1 =>
      rw [hc] at h
      simp only [] at h
      injection h with h
      subst h
      exact checkCancel_inl cancel st o1 hc
    | inr st1 =>
      rw [hc] at h
      simp only [] at h
      split at h
      · exact Sum.noConfusion h
      · cases hc2 : checkCancel cancel _ with
        | inl o2 =>
          rw [hc2] at h
          simp only [] at h
          injection h with h
          subst h
          exact checkCancel_inl cancel _ o2 hc2
        | inr st3 =>
          rw [hc2] at h
          simp only [] at h
          exact ih _ _ h

/-- The raycast stage never touches the input surface. -/
theorem raycastStage_inr_input (ext : Externals) (opts : Options) (cancel : ℕ → Bool)
    (st st' : PipeState) (h : raycastStage ext opts cancel st = .inr st') :
    st'.input = st.input := by
  unfold raycastStage at h
  cases hc : checkCancel cancel st with
  | inl o => rw [hc] at h; exact Sum.noConfusion h
  | inr st1 =>
    rw [hc] at h
    have h1 := checkCancel_inr cancel st st1 hc
    subst h1
    simp only [] at h
    cases hc2 : checkCancel cancel _ with
    | inl o =>
      rw [hc2] at h
      exact Sum.noConfusion h
    | inr st2 =>
      rw [hc2] at h
      simp only [] at h
      have h2 := checkCancel_inr cancel _ st2 hc2
      subst h2
      split at h
      · injection h with h
        subst h
        rfl
      · injection h with h
        subst h
        rfl

/-- Cancellation exits of the raycast stage carry the cancellation outcome. -/
theorem raycastStage_inl_cancel (ext : Externals) (opts : Options) (cancel : ℕ → Bool)
    (st : PipeState) (o : RunOutcome) (h : raycastStage ext opts cancel st = .inl o) :
    o.result = false ∧ o.committed = none ∧ o.cancelled = true ∧
      o.cancelledAtDispatch = false ∧ o.segPrepared = true := by
  unfold raycastStage at h
  cases hc : checkCancel cancel st with
  | inl o1 =>
    rw [hc] at h
    simp only [] at h
    injection h with h
    subst h
    exact checkCancel_inl cancel st o1 hc
  | inr st1 =>
    rw [hc] at h
    simp only [] at h
    cases hc2 : checkCancel cancel _ with
    | inl o2 =>
      rw [hc2] at h
      simp only [] at h
      injection h with h
      subst h
      exact checkCancel_inl cancel _ o2 hc2
    | inr st2 =>
      rw [hc2] at h
      simp only [] at h
      split at h
      · exact Sum.noConfusion h
      · exact Sum.noConfusion h

/-- The second shrinkwrap stage (loop plus windowed-sinc smoothing) never
touches the input surface. -/
theorem secondStage_inr_input (ext : Externals) (opts : Options) (cancel : ℕ → Bool)
    (st st' : PipeState) (h : secondShrinkwrapStage ext opts cancel st = .inr st') :
    st'.input = st.input := by
  unfold secondShrinkwrapStage at h
  cases hl : secondShrinkwrapLoop ext opts cancel (opts.iterationsSecondShrinkwrap + 1) st with
  | inl o => rw [hl] at h; exact Sum.noConfusion h
  | inr st1 =>
    rw [hl] at h
    simp only [] at h
    injection h with h
    subst h
    exact secondLoop_inr_input ext opts cancel _ st st1 hl

/-- Cancellation exits of the second shrinkwrap stage carry the cancellation
outcome. -/
theorem secondStage_inl_cancel (ext : Externals) (opts : Options) (cancel : ℕ → Bool)
    (st : PipeState) (o : RunOutcome) (h : secondShrinkwrapStage ext opts cancel st = .inl o) :
    o.result = false ∧ o.committed = none ∧ o.cancelled = true ∧
      o.cancelledAtDispatch = false ∧ o.segPrepared = true := by
  unfold secondShrinkwrapStage at h
  cases hl : secondShrinkwrapLoop ext opts cancel (opts.iterationsSecondShrinkwrap + 1) st with
  | inl o1 =>
    rw [hl] at h
    simp only [] at h
    injection h with h
    subst h
    exact secondLoop_inl_cancel ext opts cancel _ st o1 hl
  | inr st1 =>
    rw [hl] at h
    exact Sum.noConfusion h

/-- The cap-removal stage never touches the input surface. -/
theorem capsStage_inr_input (ext : Externals) (opts : Options) (cancel : ℕ → Bool)
    (st st' : PipeState) (h : capsStage ext opts cancel st = .inr st') :
    st'.input = st.input := by
  unfold capsStage at h
  cases hc : checkCancel cancel st with
  | inl o => rw [hc] at h; exact Sum.noConfusion h
  | inr st1 =>
    rw [hc] at h
    simp only [] at h
    have h1 := checkCancel_inr cancel st st1 hc
    subst h1
    injection h with h
    subst h
    rfl

/-- Cancellation exits of the cap-removal stage carry the cancellation
outcome. -/
theorem capsStage_inl_cancel (ext : Externals) (opts : Options) (cancel : ℕ → Bool)
    (st : PipeState) (o : RunOutcome) (h : capsStage ext opts cancel st = .inl o) :
    o.result = false ∧ o.committed = none ∧ o.cancelled = true ∧
      o.cancelledAtDispatch = false ∧ o.segPrepared = true := by
  unfold capsStage at h
  cases hc : checkCancel cancel st with
  | inl o1 =>
    rw [hc] at h
    simp only [] at h
    injection h with h
    subst h
    exact checkCancel_inl cancel st o1 hc
  | inr st1 =>
    rw [hc] at h
    exact Sum.noConfusion h

/-- Cancellation exits of the solidification stage carry the cancellation
outcome. -/
theorem solidifyStage_inl_cancel (ext : Externals) (opts : Options) (cancel : ℕ → Bool)
    (st : PipeState) (o : RunOutcome) (h : solidifyStage ext opts cancel st = .inl o) :
    o.result = false ∧ o.committed = none ∧ o.cancelled = true ∧
      o.cancelledAtDispatch = false ∧ o.segPrepared = true := by
  unfold solidifyStage at h
  cases hc : checkCancel cancel st with
  | inl o1 =>
    rw [hc] at h
    simp only [] at h
    injection h with h
    subst h
    exact checkCancel_inl cancel st o1 hc
  | inr st1 =>
    rw [hc] at h
    exact Sum.noConfusion h

/-- With the cancellation flag never set, a check just advances the counter. -/
theorem checkCancel_false_eq (st : PipeState) :
    checkCancel (fun _ => false) st = .inr { st with k := st.k + 1 } := rfl

/-- With the cancellation flag never set, the first shrinkwrap loop finishes
and only appends to the log. -/
theorem firstLoop_noCancel (ext : Externals) (opts : Options) :
    ∀ n st, ∃ st' t, firstShrinkwrapLoop ext opts (fun _ => false) n st = .inr st' ∧
      st'.log = st.log ++ t := by
  intro n
  induction n with
  | zero => exact fun st => ⟨st, [], rfl, by simp⟩
  | succ r ih =>
    intro st
    cases r with
    | zero => exact ⟨_, [LogMsg.shrinkwrapping], rfl, rfl⟩
    | succ r' =>
      obtain ⟨st', t, heq, hl⟩ := ih
        { input := st.input
        , working := ext.remesh
            { points := firstShrinkwrapPoints ext st.input opts.offsetFirstShrinkwrap
                st.working.points
            , cells := st.working.cells } opts.spacingFirstRemesh
        , log := (st.log ++ [LogMsg.shrinkwrapping]) ++ [LogMsg.remeshing]
        , k := st.k + 1 + 1 }
      refine ⟨st', LogMsg.shrinkwrapping :: LogMsg.remeshing :: t, heq, ?_⟩
      rw [hl]
      simp

/-- With the cancellation flag never set, the second shrinkwrap loop finishes
and only appends to the log. -/
theorem secondLoop_noCancel (ext : Externals) (opts : Options) :
    ∀ n st, ∃ st' t, secondShrinkwrapLoop ext opts (fun _ => false) n st = .inr st' ∧
      st'.log = st.log ++ t := by
  intro n
  induction n with
  | zero => exact fun st => ⟨st, [], rfl, by simp⟩
  | succ r ih =>
    intro st
    cases r with
    | zero => exact ⟨_, [LogMsg.remeshing], rfl, rfl⟩
    | succ r' =>
      obtain ⟨st', t, heq, hl⟩ := ih
        { input := st.input
        , working := ext.smoothTowards (ext.remesh st.working opts.spacingSecondRemesh) st.input
        , log := (st.log ++ [LogMsg.remeshing]) ++ [LogMsg.shrinkwrapping]
        , k := st.k + 1 + 1 }
      refine ⟨st', LogMsg.remeshing :: LogMsg.shrinkwrapping :: t, heq, ?_⟩
      rw [hl]
      simp

/-- With the cancellation flag never set, the raycast stage finishes and
appends exactly its progress message. -/
theorem raycastStage_noCancel (ext : Externals) (opts : Options) (st : PipeState) :
    ∃ st', raycastStage ext opts (fun _ => false) st = .inr st' ∧
      st'.log = st.log ++ [LogMsg.raycasting] := by
  cases hr : raycastStage ext opts (fun _ => false) st with
  | inl o =>
    exfalso
    unfold raycastStage at hr
    rw [checkCancel_false_eq] at hr
    simp only [] at hr
    rw [checkCancel_false_eq] at hr
    simp only [] at hr
    split at hr
    · exact Sum.noConfusion hr
    · exact Sum.noConfusion hr
  | inr st' =>
    refine ⟨st', rfl, ?_⟩
    unfold raycastStage at hr
    rw [checkCancel_false_eq] at hr
    simp only [] at hr
    rw [checkCancel_false_eq] at hr
    simp only [] at hr
    split at hr
    · injection hr with hr
      subst hr
      rfl
    · injection hr with hr
      subst hr
      rfl

/-- With the cancellation flag never set, the second shrinkwrap stage
finishes and only appends to the log. -/
theorem secondStage_noCancel (ext : Externals) (opts : Options) (st : PipeState) :
    ∃ st' t, secondShrinkwrapStage ext opts (fun _ => false) st = .inr st' ∧
      st'.log = st.log ++ t := by
  obtain ⟨st1, t, heq, hl⟩ :=
    secondLoop_noCancel ext opts (opts.iterationsSecondShrinkwrap + 1) st
  refine ⟨{ st1 with working := ext.windowedSinc st1.working }, t, ?_, ?_⟩
  · unfold secondShrinkwrapStage
    rw [heq]
  · exact hl

/-- With the cancellation flag never set, the cap-removal stage is one
counter step, one log message, and the cap-removal rewrite of the working
mesh. -/
theorem capsStage_noCancel (ext : Externals) (opts : Options) (st : PipeState) :
    capsStage ext opts (fun _ => false) st = .inr
      { input := st.input
      , working := removeCaps st.working (ext.implicitDistance st.input) opts.maxModelDistance
      , log := st.log ++ [LogMsg.removingCaps]
      , k := st.k + 1 } := rfl

/-- Commit helper invariant: when its cancellation check fires, nothing is
committed and the discarded `False` makes the result equal `true`, the value
recorded in `cancelledAtDispatch`. -/
theorem commitAndFinish_inv (cancel : ℕ → Bool) (typ : OutputType) (msg : LogMsg)
    (mesh : Mesh) (st : PipeState)
    (h : (commitAndFinish cancel typ msg mesh st).cancelled = true) :
    (commitAndFinish cancel typ msg mesh st).committed = none ∧
      (commitAndFinish cancel typ msg mesh st).result =
        (commitAndFinish cancel typ msg mesh st).cancelledAtDispatch ∧
      (commitAndFinish cancel typ msg mesh st).segPrepared = true := by
  unfold commitAndFinish at h ⊢
  by_cases hc : cancel st.k = true
  · rw [if_pos hc]
    exact ⟨rfl, rfl, rfl⟩
  · rw [if_neg hc] at h
    exact Bool.noConfusion h

/-- Dispatch invariant: a cancellation detected during output dispatch
commits nothing and still returns `true`. -/
theorem dispatchOutput_inv (cancel : ℕ → Bool) (typ : OutputType) (mesh : Mesh)
    (st : PipeState) (h : (dispatchOutput cancel typ mesh st).cancelled = true) :
    (dispatchOutput cancel typ mesh st).committed = none ∧
      (dispatchOutput cancel typ mesh st).result =
        (dispatchOutput cancel typ mesh st).cancelledAtDispatch ∧
      (dispatchOutput cancel typ mesh st).segPrepared = true := by
  cases typ with
  | SEGMENTATION =>
    exact commitAndFinish_inv cancel .SEGMENTATION LogMsg.updatingSegmentation mesh st h
  | MODEL => exact commitAndFinish_inv cancel .MODEL LogMsg.creatingModel mesh st h
  | UNKNOWN => exact Bool.noConfusion h

/-- C2 (amended): whenever some cooperative cancellation check of a run
detects the flag, the run commits no output, while the segmentation node's
closed-surface representation has already been rebuilt during run setup; the
returned boolean is `False` — the same value as a failure — unless the
detection happened inside the output dispatch helpers, whose `False` return
the call sites discard so the run returns `True` — the same value as a
success.  No third outcome value distinct from success and failure exists. -/
theorem cancellation_outcome (ext : Externals) (opts : Options) (cancel : ℕ → Bool)
    (segSurface : Mesh)
    (h : (ApplySRSFilter ext opts cancel segSurface).cancelled = true) :
    (ApplySRSFilter ext opts cancel segSurface).committed = none ∧
      (ApplySRSFilter ext opts cancel segSurface).result =
        (ApplySRSFilter ext opts cancel segSurface).cancelledAtDispatch ∧
      (ApplySRSFilter ext opts cancel segSurface).segPrepared = true := by
  unfold ApplySRSFilter at h ⊢
  simp only [] at h ⊢
  cases h1 : firstShrinkwrapLoop ext opts cancel opts.iterationsFirstShrinkwrap
      { input := segSurface, working := initialWorkingMesh ext segSurface
      , log := [LogMsg.filtering], k := 0 } with
  | inl o =>
    rw [h1] at h
    obtain ⟨hr, hco, hca, hd, hs⟩ := firstLoop_inl_cancel ext opts cancel _ _ o h1
    exact ⟨hco, by rw [hr, hd], hs⟩
  | inr st1 =>
    rw [h1] at h
    simp only [] at h ⊢
    by_cases hm1 : opts.filterMode = .CONVEXHULL
    · rw [if_pos hm1] at h ⊢
      exact dispatchOutput_inv cancel opts.outputType st1.working st1 h
    · rw [if_neg hm1] at h ⊢
      cases h2 : raycastStage ext opts cancel st1 with
      | inl o =>
        rw [h2] at h
        obtain ⟨hr, hco, hca, hd, hs⟩ := raycastStage_inl_cancel ext opts cancel _ o h2
        exact ⟨hco, by rw [hr, hd], hs⟩
      | inr st2 =>
        rw [h2] at h
        simp only [] at h ⊢
        by_cases hm2 : opts.filterMode = .RAYCASTS
        · rw [if_pos hm2] at h ⊢
          exact dispatchOutput_inv cancel opts.outputType st2.working st2 h
        · rw [if_neg hm2] at h ⊢
          cases h3 : secondShrinkwrapStage ext opts cancel st2 with
          | inl o =>
            rw [h3] at h
            obtain ⟨hr, hco, hca, hd, hs⟩ := secondStage_inl_cancel ext opts cancel _ o h3
            exact ⟨hco, by rw [hr, hd], hs⟩
          | inr st3 =>
            rw [h3] at h
            simp only [] at h ⊢
            by_cases hm3 : opts.filterMode = .DEEPHULL
            · rw [if_pos hm3] at h ⊢
              exact dispatchOutput_inv cancel opts.outputType st3.working st3 h
            · rw [if_neg hm3] at h ⊢
              cases h4 : capsStage ext opts cancel st3 with
              | inl o =>
                rw [h4] at h
                obtain ⟨hr, hco, hca, hd, hs⟩ := capsStage_inl_cancel ext opts cancel _ o h4
                exact ⟨hco, by rw [hr, hd], hs⟩
              | inr st4 =>
                rw [h4] at h
                simp only [] at h ⊢
                by_cases hm4 : opts.filterMode = .NONMANIFOLD
                · rw [if_pos hm4] at h ⊢
                  cases ht : opts.outputType with
                  | SEGMENTATION =>
                    rw [ht] at h
                    exact Bool.noConfusion h
                  | MODEL =>
                    rw [ht] at h
                    exact commitAndFinish_inv cancel .MODEL LogMsg.creatingModel
                      st4.working st4 h
                  | UNKNOWN =>
                    rw [ht] at h
                    exact Bool.noConfusion h
                · rw [if_neg hm4] at h ⊢
                  cases h5 : solidifyStage ext opts cancel st4 with
                  | inl o =>
                    rw [h5] at h
                    obtain ⟨hr, hco, hca, hd, hs⟩ :=
                      solidifyStage_inl_cancel ext opts cancel _ o h5
                    exact ⟨hco, by rw [hr, hd], hs⟩
                  | inr st5 =>
                    rw [h5] at h
                    simp only [] at h ⊢
                    by_cases hm5 : opts.filterMode = .SOLIDIFIED
                    · rw [if_pos hm5] at h ⊢
                      exact dispatchOutput_inv cancel opts.outputType st5.working st5 h
                    · rw [if_neg hm5] at h
                      exact Bool.noConfusion h

/-- Witness for the amended C2: with the flag permanently set, the first
in-stage check cancels the run, which commits nothing and returns the
failure value. -/
theorem cancellation_outcome_witness :
    (ApplySRSFilter ext0 optsCH (fun _ => true) mesh0).committed = none ∧
      (ApplySRSFilter ext0 optsCH (fun _ => true) mesh0).result =
        (ApplySRSFilter ext0 optsCH (fun _ => true) mesh0).cancelledAtDispatch ∧
      (ApplySRSFilter ext0 optsCH (fun _ => true) mesh0).segPrepared = true :=
  cancellation_outcome ext0 optsCH (fun _ => true) mesh0 rfl

/-- C2 (counterexample): a run cancelled at the first stage boundary returns
`false` and commits nothing — exactly the observable outcome of a failing
run (here: one with an unknown output type), so the cancellation outcome is
not distinct from failure; and the segmentation node's surface
representation was already rebuilt during run setup, so caller-owned state
is not left untouched. -/
theorem cancellation_counterexample :
    (ApplySRSFilter ext0 optsCH (fun _ => true) mesh0).result = false ∧
      (ApplySRSFilter ext0 optsCH (fun _ => true) mesh0).committed = none ∧
      (ApplySRSFilter ext0 optsCHU (fun _ => false) mesh0).result = false ∧
      (ApplySRSFilter ext0 optsCHU (fun _ => false) mesh0).committed = none ∧
      (ApplySRSFilter ext0 optsCH (fun _ => true) mesh0).segPrepared = true :=
  ⟨rfl, rfl, rfl, rfl, rfl⟩

/-- C1 (amended): with filter mode NONMANIFOLD and output type SEGMENTATION
and no cancellation, the run is not rejected before execution: the raycast
and cap-removal stages run (their progress messages are in the emitted log),
the invalid combination is detected only at the output dispatch after cap
removal, where an error is logged, no output is committed — and the run
returns `True`, the success value, not a failure. -/
theorem nonmanifoldSegmentation_runs (ext : Externals) (opts : Options)
    (segSurface : Mesh) (hm : opts.filterMode = .NONMANIFOLD)
    (ht : opts.outputType = .SEGMENTATION) :
    (ApplySRSFilter ext opts (fun _ => false) segSurface).result = true ∧
      (ApplySRSFilter ext opts (fun _ => false) segSurface).committed = none ∧
      LogMsg.raycasting ∈ (ApplySRSFilter ext opts (fun _ => false) segSurface).log ∧
      LogMsg.removingCaps ∈ (ApplySRSFilter ext opts (fun _ => false) segSurface).log ∧
      LogMsg.errorSegNonmanifold ∈
        (ApplySRSFilter ext opts (fun _ => false) segSurface).log := by
  obtain ⟨st1, t1, h1, hl1⟩ := firstLoop_noCancel ext opts opts.iterationsFirstShrinkwrap
    { input := segSurface, working := initialWorkingMesh ext segSurface
    , log := [LogMsg.filtering], k := 0 }
  obtain ⟨st2, h2, hl2⟩ := raycastStage_noCancel ext opts st1
  obtain ⟨st3, t3, h3, hl3⟩ := secondStage_noCancel ext opts st2
  have h4 := capsStage_noCancel ext opts st3
  unfold ApplySRSFilter
  simp only []
  rw [h1]
  simp only []
  rw [if_neg (by rw [hm]; decide)]
  rw [h2]
  simp only []
  rw [if_neg (by rw [hm]; decide)]
  rw [h3]
  simp only []
  rw [if_neg (by rw [hm]; decide)]
  rw [h4]
  simp only []
  rw [if_pos hm, ht]
  refine ⟨rfl, rfl, ?_, ?_, ?_⟩
  · simp [hl3, hl2]
  · simp
  · simp

/-- Witness for the amended C1 at the concrete invalid configuration. -/
theorem nonmanifoldSegmentation_runs_witness :
    (ApplySRSFilter ext0 opts0 (fun _ => false) mesh0).result = true ∧
      (ApplySRSFilter ext0 opts0 (fun _ => false) mesh0).committed = none ∧
      LogMsg.raycasting ∈ (ApplySRSFilter ext0 opts0 (fun _ => false) mesh0).log ∧
      LogMsg.removingCaps ∈ (ApplySRSFilter ext0 opts0 (fun _ => false) mesh0).log ∧
      LogMsg.errorSegNonmanifold ∈ (ApplySRSFilter ext0 opts0 (fun _ => false) mesh0).log :=
  nonmanifoldSegmentation_runs ext0 opts0 mesh0 rfl rfl

/-- C1 (counterexample): the concrete NONMANIFOLD+SEGMENTATION run over the
empty mesh with trivial collaborators is not rejected before execution: the
raycast and cap-removal stages run, nothing is committed, and the run
returns `True` — a success, not the failure the claim demands before any
geometry processing. -/
theorem nonmanifoldSegmentation_counterexample :
    (ApplySRSFilter ext0 opts0 (fun _ => false) mesh0).result = true ∧
      (ApplySRSFilter ext0 opts0 (fun _ => false) mesh0).committed = none ∧
      LogMsg.removingCaps ∈ (ApplySRSFilter ext0 opts0 (fun _ => false) mesh0).log ∧
      LogMsg.raycasting ∈ (ApplySRSFilter ext0 opts0 (fun _ => false) mesh0).log :=
  ⟨rfl, rfl, by decide, by decide⟩

/-- C9: no pipeline stage mutates the input surface: across the first
shrinkwrap loop, the raycast stage, the second shrinkwrap stage, and the
cap-removal stage the `input` mesh of the pipe state — the polydata fetched
from the segment at run start, over which the locator, the smoothing
filter's reference surface, and the implicit-distance queries are built —
is preserved exactly. -/
theorem inputSurface_immutable (ext : Externals) (opts : Options) (cancel : ℕ → Bool) :
    (∀ n st st', firstShrinkwrapLoop ext opts cancel n st = .inr st' →
      st'.input = st.input) ∧
    (∀ st st', raycastStage ext opts cancel st = .inr st' → st'.input = st.input) ∧
    (∀ st st', secondShrinkwrapStage ext opts cancel st = .inr st' →
      st'.input = st.input) ∧
    (∀ st st', capsStage ext opts cancel st = .inr st' → st'.input = st.input) :=
  ⟨firstLoop_inr_input ext opts cancel,
   fun st st' => raycastStage_inr_input ext opts cancel st st',
   fun st st' => secondStage_inr_input ext opts cancel st st',
   fun st st' => capsStage_inr_input ext opts cancel st st'⟩

/-- Witness for C9: the concrete cap-removal stage application preserves the
input mesh. -/
theorem inputSurface_immutable_witness :
    capsStage ext0 opts0 (fun _ => false) pst0 = Sum.inr pst1 ∧ pst1.input = pst0.input :=
  ⟨rfl, (inputSurface_immutable ext0 opts0 (fun _ => false)).2.2.2 pst0 pst1 rfl⟩

/-- C10: when no face was flagged large, or `raycastMaxLength` is not
positive, the raycast stage still subdivides and cleans the working mesh but
relocates no vertex: the resulting working mesh is exactly the
subdivided-and-cleaned mesh. -/
theorem raycast_noop_without_candidates (ext : Externals) (opts : Options)
    (cancel : ℕ → Bool) (st st' : PipeState)
    (h : raycastStage ext opts cancel st = .inr st')
    (hg : largeCellIdsOf st.working opts.raycastSearchEdgeLength = [] ∨
      opts.raycastMaxLength ≤ 0) :
    st'.working = ext.subdivideClean st.working opts.raycastOutputEdgeLength := by
  unfold raycastStage at h
  cases hc : checkCancel cancel st with
  | inl o => rw [hc] at h; exact Sum.noConfusion h
  | inr st1 =>
    rw [hc] at h
    have h1 := checkCancel_inr cancel st st1 hc
    subst h1
    simp only [] at h
    cases hc2 : checkCancel cancel _ with
    | inl o => rw [hc2] at h; exact Sum.noConfusion h
    | inr st2 =>
      rw [hc2] at h
      simp only [] at h
      have h2 := checkCancel_inr cancel _ st2 hc2
      subst h2
      split at h
      next hcond =>
        exfalso
        rcases hg with hg | hg
        · exact hcond.1 hg
        · exact absurd hcond.2 (not_lt.mpr hg)
      next hcond =>
        injection h with h
        subst h
        rfl

/-- Witness for C10: over the empty mesh no cell is large, and the stage
output's working mesh equals the subdivided-and-cleaned input. -/
theorem raycast_noop_without_candidates_witness :
    raycastStage ext0 opts0 (fun _ => false) pst0 = Sum.inr pstRc ∧
      pstRc.working = ext0.subdivideClean pst0.working opts0.raycastOutputEdgeLength :=
  ⟨rfl, raycast_noop_without_candidates ext0 opts0 (fun _ => false) pst0 pstRc rfl
    (Or.inl rfl)⟩

/-- Witness for C7: the triangle of `meshC4` is kept by cap removal under
the distance field `p ↦ p.x` with threshold 10, since all its vertices lie
within distance 10. -/
theorem capRemoval_keeps_iff_witness :
    [0, 1, 2] ∈ (removeCaps meshC4 (fun p => p.x) 10).cells := by
  refine (capRemoval_keeps_iff meshC4 (fun p => p.x) 10 [0, 1, 2]).1.mpr
    ⟨by simp [meshC4], ?_⟩
  intro p hp
  have hpts : cellPointsOf meshC4 [0, 1, 2] = [⟨0, 0, 0⟩, ⟨3, 0, 0⟩, ⟨3, 4, 0⟩] := rfl
  rw [hpts] at hp
  simp only [List.mem_cons, List.not_mem_nil, or_false] at hp
  rcases hp with rfl | rfl | rfl
  · show |(0 : ℝ)| ≤ 10
    norm_num
  · show |(3 : ℝ)| ≤ 10
    norm_num
  · show |(3 : ℝ)| ≤ 10
    norm_num
